import Mathlib

/-
  Verification development for the ycsb-rs benchmark harness.

  Shallow embedding conventions:
  * usize/u64 are modelled as Nat.  Ordinary usize arithmetic is modelled with
    checked operations (usizeAdd, usizeSub, usizeMul) that produce a panic
    outcome on overflow or underflow, matching Rust's definition of integer
    overflow as a program error (the behaviour of debug / overflow-checked
    builds).  AtomicU64::fetch_add is documented to wrap in every build, so the
    counter generator advances modulo 2^64.
  * f64 values are modelled as Rat.  Calls to f64::powf are modelled by an
    explicit oracle parameter (pf : Rat -> Rat -> Rat), since the claims settled
    here never depend on the numeric value of a powf result.
  * Fallible Rust code returning Result is modelled by POut, which also carries
    a panic outcome; the question-mark operator corresponds to POut.bind.
  * Randomness (thread_rng draws, alphanumeric value strings, xx::hash64) is
    modelled by an Oracle of streams, indexed by positions threaded through the
    WState record; the set of reachable outputs of rand's integer Uniform over
    the half-open range low..high is modelled by low + r % (high - low).
-/

namespace YCSB

/-- Error type of src/result.rs (the Io payload is irrelevant here). -/
inductive Err where
  | invalidArgument (msg : String)
  | unknownSpecFormat
  | transactionAborted
  | io
deriving DecidableEq

/-- Outcome of running a piece of Rust code: an Ok value, an Err value, or a
panic (used for checked-arithmetic overflow, failed assertions and unwrap). -/
inductive POut (α : Type) where
  | ok (val : α)
  | err (e : Err)
  | panic (msg : String)
deriving DecidableEq

/-- Monadic bind on POut: models the question-mark operator; errors and panics
propagate. -/
def POut.bind {α β : Type} : POut α → (α → POut β) → POut β
  | .ok a, f => f a
  | .err e, _ => .err e
  | .panic m, _ => .panic m

def POut.map {α β : Type} (f : α → β) : POut α → POut β
  | .ok a => .ok (f a)
  | .err e => .err e
  | .panic m => .panic m

instance : Monad POut where
  pure := POut.ok
  bind := POut.bind
  map := POut.map

def POut.isOk {α : Type} : POut α → Bool
  | .ok _ => true
  | _ => false

def POut.isErr {α : Type} : POut α → Bool
  | .err _ => true
  | _ => false

def POut.isPanic {α : Type} : POut α → Bool
  | .panic _ => true
  | _ => false

/-- Largest usize / u64 value on the 64-bit targets this crate runs on. -/
def USIZE_MAX : ℕ := 2 ^ 64 - 1

/-- Checked usize addition: panics on overflow. -/
def usizeAdd (a b : ℕ) : POut ℕ :=
  if a + b ≤ USIZE_MAX then .ok (a + b) else .panic "attempt to add with overflow"

/-- Checked usize subtraction: panics on underflow. -/
def usizeSub (a b : ℕ) : POut ℕ :=
  if b ≤ a then .ok (a - b) else .panic "attempt to subtract with overflow"

/-- Checked usize multiplication: panics on overflow. -/
def usizeMul (a b : ℕ) : POut ℕ :=
  if a * b ≤ USIZE_MAX then .ok (a * b) else .panic "attempt to multiply with overflow"

/-- Rust float-to-usize cast: truncates toward zero and saturates at the ends
(never panics). -/
def f64AsUsize (q : ℚ) : ℕ :=
  if q < 0 then 0 else min q.floor.toNat USIZE_MAX

/-- Model of rand's integer Uniform distribution (rand 0.8, as used by the
crate): a pair of bounds, sampling the half-open range low..high. -/
structure Uniform where
  low : ℕ
  high : ℕ
deriving DecidableEq

/-- Models rand's Uniform::new(low, high), which panics unless low < high and
otherwise samples uniformly from the half-open range low..high (high is
excluded; Uniform::new_inclusive would include it, but the crate never calls
that constructor). -/
def Uniform.new (low high : ℕ) : POut Uniform :=
  if low < high then .ok { low := low, high := high }
  else .panic "Uniform::new called with low >= high"

/-- Sampling the half-open integer range low..high from a raw RNG draw r: the
set of reachable values as r ranges over the naturals is exactly the interval
from low up to but excluding high, which is the documented support of rand's
Uniform::new distribution. -/
def Uniform.sample (d : Uniform) (r : ℕ) : ℕ :=
  d.low + r % (d.high - d.low)

/-- src/generator.rs uniform_gen: builds the Uniform distribution generator. -/
def uniform_gen (min max : ℕ) : POut Uniform :=
  Uniform.new min max

/-- src/generator.rs DiscreteDistribution: the weighted list plus the weight
sum cached at construction time. -/
structure DiscreteDistribution (α : Type) where
  values : List (α × ℚ)
  sum : ℚ
deriving DecidableEq

/-- src/generator.rs DiscreteDistribution::new: caches the sum of the weights. -/
def DiscreteDistribution.new {α : Type} (values : List (α × ℚ)) : DiscreteDistribution α :=
  { values := values, sum := (values.map (fun x => x.2)).sum }

/-- Loop body of DiscreteDistribution::sample: acc accumulates weight / sum and
the first element with u < acc is returned, with the Default value (Inhabited
in this embedding) as the fallback when the walk falls off the end. -/
def discreteSampleGo {α : Type} [Inhabited α] (sum u : ℚ) : ℚ → List (α × ℚ) → α
  | _, [] => default
  | acc, (t, weight) :: rest =>
      if u < acc + weight / sum then t
      else discreteSampleGo sum u (acc + weight / sum) rest

/-- src/generator.rs impl Distribution for DiscreteDistribution: u is the
rng.gen f64 draw in the unit interval. -/
def DiscreteDistribution.sample {α : Type} [Inhabited α] (d : DiscreteDistribution α) (u : ℚ) : α :=
  discreteSampleGo d.sum u 0 d.values

/-- src/generator.rs discrete_gen. -/
def discrete_gen {α : Type} (values : List (α × ℚ)) : DiscreteDistribution α :=
  DiscreteDistribution.new values

/-- Spec-side walk for the Discrete generator, following the spec's words: keep
a running raw-weight total c, and return the first element whose cumulative
normalized mass (c + w) / total strictly exceeds u, falling back to the default
value when no element qualifies. -/
def discreteSpecGo {α : Type} [Inhabited α] (total u : ℚ) : ℚ → List (α × ℚ) → α
  | _, [] => default
  | c, (t, w) :: rest =>
      if u < (c + w) / total then t else discreteSpecGo total u (c + w) rest

/-- Spec-side Discrete sampling over the raw weight list (normalizing by the
total weight sum). -/
def discreteSpecSample {α : Type} [Inhabited α] (values : List (α × ℚ)) (u : ℚ) : α :=
  discreteSpecGo ((values.map (fun x => x.2)).sum) u 0 values

/-- src/generator.rs ZIPFIAN_CONSTANT (0.99). -/
def ZIPFIAN_CONSTANT : ℚ := 99 / 100

/-- src/generator.rs ZipfDistribution: the float fields are exact rationals in
this embedding, with powf results supplied by the pf oracle. -/
structure ZipfDistribution where
  base : ℕ
  num_items : ℕ
  theta : ℚ
  zeta_n : ℚ
  alpha : ℚ
  eta : ℚ
deriving DecidableEq

/-- src/generator.rs ZipfDistribution::zeta: sum over 0..num of
1 / (i+1)^theta, the powf call modelled by pf. -/
def zeta (pf : ℚ → ℚ → ℚ) (num : ℕ) (theta : ℚ) : ℚ :=
  ((List.range num).map (fun i => 1 / pf ((i : ℚ) + 1) theta)).sum

/-- src/generator.rs ZipfDistribution::new.  The subtraction max - min is
reached only under the guard max >= min, so only the subsequent + 1 is
checked. -/
def ZipfDistribution.new (pf : ℚ → ℚ → ℚ) (min max : ℕ) (theta : ℚ) :
    POut ZipfDistribution :=
  if max < min then .err (.invalidArgument "max < min")
  else
    match usizeAdd (max - min) 1 with
    | POut.ok num_items =>
        if num_items < 2 then .err (.invalidArgument "max - min < 2")
        else if theta = 1 then .err (.invalidArgument "theta == 1.0")
        else
          .ok { base := min
                num_items := num_items
                theta := theta
                zeta_n := zeta pf num_items theta
                alpha := 1 / (1 - theta)
                eta := (1 - pf (2 / (num_items : ℚ)) (1 - theta)) /
                  (1 - zeta pf 2 theta / zeta pf num_items theta) }
    | POut.err e => .err e
    | POut.panic m => .panic m

/-- src/generator.rs impl Distribution for ZipfDistribution: u is the f64 draw
in the unit interval.  The final addition base + cast is left unchecked: at
both construction sites of the crate (zipfian_gen and SkewedLatestGenerator)
the base is 0, so it cannot overflow.  Note the source applies no clamp to the
computed index. -/
def ZipfDistribution.sample (z : ZipfDistribution) (pf : ℚ → ℚ → ℚ) (u : ℚ) : ℕ :=
  let uz := u * z.zeta_n
  if uz < 1 then z.base
  else if uz < 1 + pf (1 / 2) z.theta then z.base + 1
  else z.base + f64AsUsize ((z.num_items : ℚ) * pf (z.eta * u - z.eta + 1) z.alpha)

/-- src/generator.rs zipfian_gen: a Zipfian over the domain from 0 to
num_elements inclusive. -/
def zipfian_gen (pf : ℚ → ℚ → ℚ) (num_elements : ℕ) (theta : ℚ) : POut ZipfDistribution :=
  ZipfDistribution.new pf 0 num_elements theta

/-- src/generator.rs CounterGenerator::next: AtomicU64::fetch_add(1) returns
the previous value and wraps on overflow (wrapping is the documented behaviour
of the atomic in every build profile). -/
def CounterGenerator.next (c : ℕ) : ℕ × ℕ :=
  (c, (c + 1) % 2 ^ 64)

/-- src/generator.rs CounterGenerator::last_value: a load, no modification. -/
def CounterGenerator.last_value (c : ℕ) : ℕ := c

/-- A single step of an interleaved call sequence against one
CounterGenerator. -/
inductive CtrOp where
  | next
  | last
deriving DecidableEq

/-- Runs a sequence of next / last_value calls against a counter holding c,
returning the observed values in order. -/
def CounterGenerator.run : List CtrOp → ℕ → List ℕ
  | [], _ => []
  | CtrOp.next :: ops, c =>
      let p := CounterGenerator.next c
      p.1 :: CounterGenerator.run ops p.2
  | CtrOp.last :: ops, c =>
      CounterGenerator.last_value c :: CounterGenerator.run ops c

/-- Number of next calls in an op sequence (last_value calls do not count). -/
def countNext : List CtrOp → ℕ
  | [] => 0
  | CtrOp.next :: ops => countNext ops + 1
  | CtrOp.last :: ops => countNext ops

/-- src/generator.rs SkewedLatestGenerator::new: reads the basis counter's
current value m and unwraps ZipfDistribution::new(0, m, ZIPFIAN_CONSTANT); the
unwrap turns a construction error into a panic. -/
def SkewedLatestGenerator.new (pf : ℚ → ℚ → ℚ) (basisVal : ℕ) : POut ZipfDistribution :=
  match ZipfDistribution.new pf 0 basisVal ZIPFIAN_CONSTANT with
  | POut.ok z => .ok z
  | POut.err _ => .panic "called Result::unwrap on an Err value"
  | POut.panic m => .panic m

/-- src/workload.rs Operation. -/
inductive Operation where
  | Insert
  | Read
  | Update
  | Scan
  | ReadModifyWrite
deriving DecidableEq

/-- src/workload.rs impl Default for Operation (Insert). -/
instance : Inhabited Operation := ⟨Operation.Insert⟩

/-- src/workload.rs DistributionSpec. -/
inductive DistributionSpec where
  | Constant (c : ℕ)
  | Uniform (min max : ℕ)
  | Zipfian (num_elements : ℕ) (s : ℚ)
  | Latest
deriving DecidableEq

/-- src/workload.rs WorkloadSpec (proportions are f64, modelled as Rat). -/
structure WorkloadSpec where
  table : String
  field_count : ℕ
  field_len_dist : DistributionSpec
  read_all_fields : Bool
  write_all_fields : Bool
  ordered_insert : Bool
  read_proportion : ℚ
  update_proportion : ℚ
  insert_proportion : ℚ
  scan_proportion : ℚ
  rmw_proportion : ℚ
  request_dist : DistributionSpec
  scan_len_dist : DistributionSpec
  insert_start : ℕ
  record_count : ℕ
  operation_count : ℕ
deriving DecidableEq

/-- src/workload.rs impl Default for WorkloadSpec. -/
def WorkloadSpec.default : WorkloadSpec :=
  { table := "usertable"
    field_count := 10
    field_len_dist := DistributionSpec.Constant 100
    read_all_fields := true
    write_all_fields := false
    ordered_insert := false
    read_proportion := 95 / 100
    update_proportion := 5 / 100
    insert_proportion := 0
    scan_proportion := 0
    rmw_proportion := 0
    request_dist := DistributionSpec.Uniform 1 1000
    scan_len_dist := DistributionSpec.Uniform 1 1000
    insert_start := 0
    record_count := 0
    operation_count := 0 }

/-- One compiled usize generator slot of the CoreWorkload (the Box dyn
Generator of the source): a constant, a rand Uniform, a Zipfian, or the
SkewedLatest wrapper around a Zipfian (whose basis counter lives in WState). -/
inductive UsizeGen where
  | const (c : ℕ)
  | unif (d : Uniform)
  | zipf (z : ZipfDistribution)
  | latest (z : ZipfDistribution)
deriving DecidableEq

/-- Oracle for the sources of nondeterminism: raw thread_rng integer draws,
unit-interval f64 draws, the alphanumeric value strings produced by
next_field_value (string contents are opaque to every claim, so the
field-length draw and character sampling are folded into this stream), and
xx::hash64 on the bytes of a key id. -/
structure Oracle where
  draws : ℕ → ℕ
  floats : ℕ → ℚ
  values : ℕ → String
  hash64 : ℕ → ℕ
  powf : ℚ → ℚ → ℚ

/-- Mutable state of one CoreWorkload: the two counter generators and the
positions consumed so far in each oracle stream. -/
structure WState where
  keyGen : ℕ
  insertSeq : ℕ
  dpos : ℕ
  fpos : ℕ
  vpos : ℕ
deriving DecidableEq

/-- Samples one value from a compiled generator slot.  The latest case mirrors
SkewedLatestGenerator::next: it re-reads the live basis counter (the
insert_key_sequence state) and subtracts the Zipfian sample with checked usize
subtraction. -/
def UsizeGen.next (g : UsizeGen) (o : Oracle) (s : WState) : POut (ℕ × WState) :=
  match g with
  | .const c => .ok (c, s)
  | .unif d => .ok (d.sample (o.draws s.dpos), { s with dpos := s.dpos + 1 })
  | .zipf z => .ok (z.sample o.powf (o.floats s.fpos), { s with fpos := s.fpos + 1 })
  | .latest z =>
      (usizeSub (CounterGenerator.last_value s.insertSeq) (z.sample o.powf (o.floats s.fpos))).map
        (fun v => (v, { s with fpos := s.fpos + 1 }))

/-- src/workload.rs CoreWorkload: the compiled generator graph plus the static
parameters.  The counter fields hold the construction-time seeds; the live
counter values are threaded through WState. -/
structure CoreWorkload where
  field_len_generator : UsizeGen
  op_generator : DiscreteDistribution Operation
  key_generator : ℕ
  key_sampler : UsizeGen
  field_generator : Uniform
  scan_len_generator : UsizeGen
  insert_key_sequence : ℕ
  field_count : ℕ
  table : String
  read_all_fields : Bool
  write_all_fields : Bool
  ordered_insert : Bool
deriving DecidableEq

/-- src/workload.rs CoreWorkload::new, following the construction order of the
source: field-length generator, operation mix, the two counters, key sampler,
field-selection generator, scan-length generator. -/
def CoreWorkload.new (pf : ℚ → ℚ → ℚ) (spec : WorkloadSpec) : POut CoreWorkload := do
  let field_len_generator ← match spec.field_len_dist with
    | DistributionSpec.Constant c => POut.ok (UsizeGen.const c)
    | DistributionSpec.Uniform mn mx => (uniform_gen mn mx).map UsizeGen.unif
    | _ => POut.err (.invalidArgument "field length distribution")
  let ops0 : List (Operation × ℚ) := []
  let ops1 := if spec.read_proportion > 0 then ops0 ++ [(Operation.Read, spec.read_proportion)] else ops0
  let ops2 := if spec.update_proportion > 0 then ops1 ++ [(Operation.Update, spec.update_proportion)] else ops1
  let ops3 := if spec.insert_proportion > 0 then ops2 ++ [(Operation.Insert, spec.insert_proportion)] else ops2
  let ops4 := if spec.scan_proportion > 0 then ops3 ++ [(Operation.Scan, spec.scan_proportion)] else ops3
  let ops5 := if spec.rmw_proportion > 0 then ops4 ++ [(Operation.ReadModifyWrite, spec.rmw_proportion)] else ops4
  let op_generator := discrete_gen ops5
  let key_generator := spec.insert_start
  let insert_key_sequence := spec.record_count
  let key_sampler ← match spec.request_dist with
    | DistributionSpec.Uniform _ _ =>
        (usizeSub spec.record_count 1).bind (fun hi => (uniform_gen 0 hi).map UsizeGen.unif)
    | DistributionSpec.Zipfian _ s => do
        let extra ← usizeMul (f64AsUsize ((spec.operation_count : ℚ) * spec.insert_proportion)) 2
        let n ← usizeAdd spec.record_count extra
        (zipfian_gen pf n s).map UsizeGen.zipf
    | DistributionSpec.Latest =>
        (SkewedLatestGenerator.new pf (CounterGenerator.last_value insert_key_sequence)).map UsizeGen.latest
    | _ => POut.err (.invalidArgument "field length distribution")
  let field_generator ← (usizeSub spec.field_count 1).bind (fun hi => uniform_gen 0 hi)
  let scan_len_generator ← match spec.scan_len_dist with
    | DistributionSpec.Uniform mn mx => (uniform_gen mn mx).map UsizeGen.unif
    | DistributionSpec.Zipfian n s => (zipfian_gen pf n s).map UsizeGen.zipf
    | _ => POut.err (.invalidArgument "scan length distribution")
  POut.ok
    { field_len_generator := field_len_generator
      op_generator := op_generator
      key_generator := key_generator
      key_sampler := key_sampler
      field_generator := field_generator
      scan_len_generator := scan_len_generator
      insert_key_sequence := insert_key_sequence
      field_count := spec.field_count
      table := spec.table
      read_all_fields := spec.read_all_fields
      write_all_fields := spec.write_all_fields
      ordered_insert := spec.ordered_insert }

/-- Initial mutable state of a freshly built CoreWorkload: counters at their
seeds, no oracle positions consumed. -/
def CoreWorkload.initState (w : CoreWorkload) : WState :=
  { keyGen := w.key_generator
    insertSeq := w.insert_key_sequence
    dpos := 0
    fpos := 0
    vpos := 0 }

/-- src/workload.rs CoreWorkload::next_table. -/
def CoreWorkload.next_table (w : CoreWorkload) : String := w.table

/-- src/workload.rs CoreWorkload::get_key_name: user prefix plus either the id
itself (ordered insert) or its 64-bit xx hash. -/
def CoreWorkload.get_key_name (w : CoreWorkload) (o : Oracle) (key_num : ℕ) : String :=
  "user" ++ toString (if w.ordered_insert then key_num else o.hash64 key_num)

/-- src/workload.rs CoreWorkload::next_sequence_key: advances the
key_generator counter. -/
def CoreWorkload.next_sequence_key (w : CoreWorkload) (o : Oracle) (s : WState) :
    String × WState :=
  let p := CounterGenerator.next s.keyGen
  (w.get_key_name o p.1, { s with keyGen := p.2 })

/-- src/workload.rs CoreWorkload::next_insert_sequence: advances the shared
insert_key_sequence counter. -/
def CoreWorkload.next_insert_sequence (w : CoreWorkload) (o : Oracle) (s : WState) :
    String × WState :=
  let p := CounterGenerator.next s.insertSeq
  (w.get_key_name o p.1, { s with insertSeq := p.2 })

/-- src/workload.rs CoreWorkload::next_transaction_key: samples the key
sampler and renders the key name. -/
def CoreWorkload.next_transaction_key (w : CoreWorkload) (o : Oracle) (s : WState) :
    POut (String × WState) :=
  (w.key_sampler.next o s).map (fun p => (w.get_key_name o p.1, p.2))

/-- src/workload.rs CoreWorkload::next_field_value: a freshly generated
alphanumeric string; its length draw and characters are folded into the value
oracle stream since no claim depends on the string contents. -/
def CoreWorkload.next_field_value (w : CoreWorkload) (o : Oracle) (s : WState) :
    String × WState :=
  (o.values s.vpos, { s with vpos := s.vpos + 1 })

/-- src/workload.rs CoreWorkload::next_field_name: field prefix plus a draw of
the field-selection generator. -/
def CoreWorkload.next_field_name (w : CoreWorkload) (o : Oracle) (s : WState) :
    String × WState :=
  ("field" ++ toString (w.field_generator.sample (o.draws s.dpos)),
    { s with dpos := s.dpos + 1 })

/-- src/workload.rs CoreWorkload::next_scan_length. -/
def CoreWorkload.next_scan_length (w : CoreWorkload) (o : Oracle) (s : WState) :
    POut (ℕ × WState) :=
  w.scan_len_generator.next o s

/-- Builder loop of CoreWorkload::build_values: pairs field names field i for i
in idx..idx+n with fresh values, consuming one value draw per field. -/
def buildValuesAux (w : CoreWorkload) (o : Oracle) :
    ℕ → ℕ → WState → List (String × String) × WState
  | _, 0, s => ([], s)
  | idx, n + 1, s =>
      let p := w.next_field_value o s
      let rest := buildValuesAux w o (idx + 1) n p.2
      (("field" ++ toString idx, p.1) :: rest.1, rest.2)

/-- src/workload.rs CoreWorkload::build_values: one freshly generated value for
each of the field_count fields. -/
def CoreWorkload.build_values (w : CoreWorkload) (o : Oracle) (s : WState) :
    List (String × String) × WState :=
  buildValuesAux w o 0 w.field_count s

/-- src/workload.rs CoreWorkload::build_update: a single freshly generated
field name / value pair. -/
def CoreWorkload.build_update (w : CoreWorkload) (o : Oracle) (s : WState) :
    (String × String) × WState :=
  let p := w.next_field_name o s
  let q := w.next_field_value o p.2
  ((p.1, q.1), q.2)

/-- src/workload.rs CoreWorkload::next_operation: one draw of the operation
mix generator. -/
def CoreWorkload.next_operation (w : CoreWorkload) (o : Oracle) (s : WState) :
    Operation × WState :=
  (w.op_generator.sample (o.floats s.fpos), { s with fpos := s.fpos + 1 })

/-- One backend call issued by the Client of src/lib.rs, as seen by the Db
trait (the transaction handle is tracked separately, per attempt). -/
inductive DbCall where
  | read (table key : String) (fields : Option (List String))
  | insert (table key : String) (values : List (String × String))
  | update (table key : String) (values : List (String × String))
  | scan (table key : String) (length : ℕ) (fields : Option (List String))
deriving DecidableEq

/-- src/lib.rs Client::read_txn: table, transaction key, then either all
fields (None) or a single sampled field name. -/
def Client.read_txn (w : CoreWorkload) (o : Oracle) (s : WState) :
    POut (DbCall × WState) :=
  (w.next_transaction_key o s).map (fun kp =>
    let fs := if w.read_all_fields then (none, kp.2)
      else
        let p := w.next_field_name o kp.2
        (some [p.1], p.2)
    (DbCall.read w.next_table kp.1 fs.1, fs.2))

/-- src/lib.rs Client::update_txn: table, transaction key, then the value
payload; note the source sends the single build_update pair when
write_all_fields is set and the full build_values set otherwise. -/
def Client.update_txn (w : CoreWorkload) (o : Oracle) (s : WState) :
    POut (DbCall × WState) :=
  (w.next_transaction_key o s).map (fun kp =>
    let vs := if w.write_all_fields then
        let q := w.build_update o kp.2
        ([q.1], q.2)
      else w.build_values o kp.2
    (DbCall.update w.next_table kp.1 vs.1, vs.2))

/-- src/lib.rs Client::insert_txn: table, next sequence key, full value set. -/
def Client.insert_txn (w : CoreWorkload) (o : Oracle) (s : WState) :
    POut (DbCall × WState) :=
  let kp := w.next_sequence_key o s
  let vs := w.build_values o kp.2
  POut.ok (DbCall.insert w.next_table kp.1 vs.1, vs.2)

/-- src/lib.rs Client::scan_txn: table, transaction key, scan length, field
selection as in read. -/
def Client.scan_txn (w : CoreWorkload) (o : Oracle) (s : WState) :
    POut (DbCall × WState) := do
  let kp ← w.next_transaction_key o s
  let lp ← w.next_scan_length o kp.2
  let fs := if w.read_all_fields then (none, lp.2)
    else
      let p := w.next_field_name o lp.2
      (some [p.1], p.2)
  POut.ok (DbCall.scan w.next_table kp.1 lp.1 fs.1, fs.2)

/-- src/lib.rs Client::rmw_txn on its successful-read path: the key is drawn
once, the read issued with the read_all_fields field selection, then the
value payload is built (the single build_update pair when write_all_fields is
set, the full build_values set otherwise) and the update issued on the same
key.  A read failure, where the source does not attempt the update, is the
aborted-attempt case handled in attemptOp. -/
def Client.rmw_txn (w : CoreWorkload) (o : Oracle) (s : WState) :
    POut (List DbCall × WState) :=
  (w.next_transaction_key o s).map (fun kp =>
    let fs := if w.read_all_fields then (none, kp.2)
      else
        let p := w.next_field_name o kp.2
        (some [p.1], p.2)
    let vs := if w.write_all_fields then
        let q := w.build_update o fs.2
        ([q.1], q.2)
      else w.build_values o fs.2
    ([DbCall.read w.next_table kp.1 fs.1, DbCall.update w.next_table kp.1 vs.1], vs.2))

/-- Dispatch of the single-backend-call Client operations by operation type.
ReadModifyWrite issues two backend calls and is modelled by Client.rmw_txn;
its arm here is a sentinel that no theorem uses. -/
def clientOp (w : CoreWorkload) (o : Oracle) : Operation → WState → POut (DbCall × WState)
  | Operation.Read => Client.read_txn w o
  | Operation.Update => Client.update_txn w o
  | Operation.Insert => Client.insert_txn w o
  | Operation.Scan => Client.scan_txn w o
  | Operation.ReadModifyWrite => fun _ => POut.panic "ReadModifyWrite issues two backend calls"

/-- One attempt of a logical operation inside the retry loop of bench_txn
(src/lib.rs lines 172-199).  The db argument says whether the i-th backend
operation call of the run succeeds (false means Error::TransactionAborted); ci
is the index of the next backend call.  Returns the calls issued, whether the
attempt succeeded, the next call index and the workload state.  The
transaction handle, obtained fresh per attempt, is tracked by the caller;
start, commit and abort are modelled as always succeeding (their failures
propagate fatally and are outside every claim).  ReadModifyWrite mirrors
Client::rmw_txn: the key is drawn once, the read is issued, and on its failure
the update is not attempted. -/
def attemptOp (w : CoreWorkload) (o : Oracle) (op : Operation) (db : ℕ → Bool)
    (ci : ℕ) (s : WState) : POut (List DbCall × Bool × ℕ × WState) :=
  match op with
  | Operation.Read =>
      (Client.read_txn w o s).map (fun p => ([p.1], db ci, ci + 1, p.2))
  | Operation.Update =>
      (Client.update_txn w o s).map (fun p => ([p.1], db ci, ci + 1, p.2))
  | Operation.Insert =>
      (Client.insert_txn w o s).map (fun p => ([p.1], db ci, ci + 1, p.2))
  | Operation.Scan =>
      (Client.scan_txn w o s).map (fun p => ([p.1], db ci, ci + 1, p.2))
  | Operation.ReadModifyWrite =>
      (w.next_transaction_key o s).bind (fun kp =>
        let fs := if w.read_all_fields then (none, kp.2)
          else
            let p := w.next_field_name o kp.2
            (some [p.1], p.2)
        let rc := DbCall.read w.next_table kp.1 fs.1
        if db ci then
          let vs := if w.write_all_fields then
              let q := w.build_update o fs.2
              ([q.1], q.2)
            else w.build_values o fs.2
          POut.ok ([rc, DbCall.update w.next_table kp.1 vs.1], db (ci + 1), ci + 2, vs.2)
        else POut.ok ([rc], false, ci + 1, fs.2))

/-- The retry loop of bench_txn for one logical operation: each iteration
starts a fresh transaction (handles are numbered consecutively by txnId),
re-runs the Client operation, commits and stops on success, aborts and retries
on TransactionAborted.  The source loops without bound; here fuel bounds the
attempts and the Bool of the result records whether a commit happened.
Returns the list of attempts as pairs of transaction handle and issued calls,
the commit flag, the next transaction id, the next call index and the final
workload state. -/
def benchRetry (w : CoreWorkload) (o : Oracle) (op : Operation) (db : ℕ → Bool) :
    ℕ → ℕ → ℕ → WState → POut (List (ℕ × List DbCall) × Bool × ℕ × ℕ × WState)
  | 0, txnId, ci, s => .ok ([], false, txnId, ci, s)
  | fuel + 1, txnId, ci, s =>
      (attemptOp w o op db ci s).bind (fun r =>
        if r.2.1 then .ok ([(txnId, r.1)], true, txnId + 1, r.2.2.1, r.2.2.2)
        else
          (benchRetry w o op db fuel (txnId + 1) r.2.2.1 r.2.2.2).map
            (fun rest => ((txnId, r.1) :: rest.1, rest.2)))

/-- One iteration of the outer loop of bench_txn: draw the operation from the
mix generator, then run the retry loop on it. -/
def benchOne (w : CoreWorkload) (o : Oracle) (db : ℕ → Bool) (fuel : ℕ) (s : WState) :
    POut (List (ℕ × List DbCall) × Bool × ℕ × ℕ × WState) :=
  let p := w.next_operation o s
  benchRetry w o p.1 db fuel 0 0 p.2

/-- src/lib.rs load_batch: inserts the batch records in order inside one
transaction, stopping at the first failing call; returns whether all inserts
succeeded together with the next call index.  On success the source returns
Ok(batch.len()). -/
def load_batch (db : ℕ → Bool) :
    ℕ → List (String × String × List (String × String)) → Bool × ℕ
  | ci, [] => (true, ci)
  | ci, _ :: rest => if db ci then load_batch db (ci + 1) rest else (false, ci + 1)

/-- The per-batch retry loop of load_db: one transaction per attempt, retried
on TransactionAborted until fuel runs out.  Returns the batch length reported
by load_batch, the next call index and the updated count of started
transactions. -/
def loadBatchRetry (db : ℕ → Bool)
    (batch : List (String × String × List (String × String))) :
    ℕ → ℕ → ℕ → Option (ℕ × ℕ × ℕ)
  | 0, _, _ => none
  | fuel + 1, ci, txns =>
      let r := load_batch db ci batch
      if r.1 then some (batch.length, r.2, txns + 1)
      else loadBatchRetry db batch fuel r.2 (txns + 1)

/-- Batch construction of load_db: count records, each drawing table, next
sequence key and a full value set from the workload. -/
def buildBatch (w : CoreWorkload) (o : Oracle) :
    ℕ → WState → List (String × String × List (String × String)) × WState
  | 0, s => ([], s)
  | n + 1, s =>
      let kp := w.next_sequence_key o s
      let vs := w.build_values o kp.2
      let rest := buildBatch w o n vs.2
      ((w.next_table, kp.1, vs.1) :: rest.1, rest.2)

/-- The batch loop of src/lib.rs load_db: b steps through 0..num_ops by
batch_size; each iteration builds a batch of min(batch_size, num_ops - b)
records and commits it through the retry loop.  Returns the total inserted
count, the list of committed batch sizes in order, the total number of started
transactions, the next call index and the final workload state; none means
some batch ran out of retry fuel. -/
def loadGo (w : CoreWorkload) (o : Oracle) (db : ℕ → Bool)
    (numOps batchSize fuel : ℕ) (hbs : 0 < batchSize) (b ci txns : ℕ) (s : WState) :
    Option (ℕ × List ℕ × ℕ × ℕ × WState) :=
  if h : b < numOps then
    let count := min batchSize (numOps - b)
    let bp := buildBatch w o count s
    match loadBatchRetry db bp.1 fuel ci txns with
    | none => none
    | some (cnt, ci2, txns2) =>
        match loadGo w o db numOps batchSize fuel hbs (b + batchSize) ci2 txns2 bp.2 with
        | none => none
        | some (total, sizes, txns3, ci3, s3) =>
            some (cnt + total, cnt :: sizes, txns3, ci3, s3)
  else some (0, [], txns, ci, s)
termination_by numOps - b
decreasing_by omega

/-- src/lib.rs load_db: starts the batch loop from offset 0; a zero batch
size panics, matching Iterator::step_by.  The outer Option is none when the
retry fuel of some batch is exhausted. -/
def load_db (w : CoreWorkload) (o : Oracle) (db : ℕ → Bool)
    (numOps batchSize fuel : ℕ) (s : WState) :
    POut (Option (ℕ × List ℕ × ℕ × ℕ × WState)) :=
  if hbs : 0 < batchSize then POut.ok (loadGo w o db numOps batchSize fuel hbs 0 0 0 s)
  else POut.panic "Iterator::step_by called with a step of zero"

section Lemmas

@[simp] theorem POut.bind_ok {α β : Type} (a : α) (f : α → POut β) :
    POut.bind (POut.ok a) f = f a := rfl

@[simp] theorem POut.bind_err {α β : Type} (e : Err) (f : α → POut β) :
    POut.bind (POut.err e) f = POut.err e := rfl

@[simp] theorem POut.bind_panic {α β : Type} (m : String) (f : α → POut β) :
    POut.bind (POut.panic m) f = POut.panic m := rfl

@[simp] theorem POut.map_ok {α β : Type} (f : α → β) (a : α) :
    POut.map f (POut.ok a) = POut.ok (f a) := rfl

@[simp] theorem POut.map_err {α β : Type} (f : α → β) (e : Err) :
    POut.map f (POut.err e) = POut.err e := rfl

@[simp] theorem POut.map_panic {α β : Type} (f : α → β) (m : String) :
    POut.map f (POut.panic m) = POut.panic m := rfl

@[simp] theorem POut.monad_bind_eq {α β : Type} (x : POut α) (f : α → POut β) :
    x >>= f = POut.bind x f := rfl

@[simp] theorem POut.monad_pure_eq {α : Type} (a : α) :
    (pure a : POut α) = POut.ok a := rfl

@[simp] theorem POut.isPanic_ok {α : Type} (a : α) : (POut.ok a).isPanic = false := rfl

@[simp] theorem POut.isPanic_err {α : Type} (e : Err) :
    (POut.err e : POut α).isPanic = false := rfl

@[simp] theorem POut.isPanic_panic {α : Type} (m : String) :
    (POut.panic m : POut α).isPanic = true := rfl

@[simp] theorem POut.isErr_ok {α : Type} (a : α) : (POut.ok a).isErr = false := rfl

@[simp] theorem POut.isErr_err {α : Type} (e : Err) :
    (POut.err e : POut α).isErr = true := rfl

@[simp] theorem POut.isErr_panic {α : Type} (m : String) :
    (POut.panic m : POut α).isErr = false := rfl

end Lemmas

/-- A fixed powf oracle for concrete instances (no settled claim depends on
powf values). -/
def pfZero : ℚ → ℚ → ℚ := fun _ _ => 0

/-- A fixed concrete oracle: raw draws are the identity stream, unit draws are
0, every generated value string is "v", the hash is the identity. -/
def oracle0 : Oracle :=
  { draws := fun n => n
    floats := fun _ => 0
    values := fun _ => "v"
    hash64 := fun n => n
    powf := pfZero }

theorem POut.isPanic_bind {α β : Type} (x : POut α) (f : α → POut β)
    (h : x.isPanic = true) : (x.bind f).isPanic = true := by
  cases x <;> simp_all [POut.isPanic, POut.bind]

/-- A field-length distribution slot that CoreWorkload::new accepts without an
error or a panic: a constant, or a uniform with a nonempty open range. -/
def fieldLenOk : DistributionSpec → Prop
  | DistributionSpec.Constant _ => True
  | DistributionSpec.Uniform mn mx => mn < mx
  | _ => False

/-- Workload spec used for the C1 failing input: defaults with two fields,
100 records and write_all_fields set. -/
def spec1t : WorkloadSpec :=
  { WorkloadSpec.default with field_count := 2, record_count := 100, write_all_fields := true }

/-- The same spec with write_all_fields cleared. -/
def spec1f : WorkloadSpec :=
  { WorkloadSpec.default with field_count := 2, record_count := 100, write_all_fields := false }

/-- C1: the claim says that with write_all_fields set an update rewrites all
field_count fields, and without it exactly one pair is sent.  The code does
the opposite: on the workload spec1t (write_all_fields = true, field_count =
2) the update payload is the single pair produced by build_update, and on
spec1f (write_all_fields = false) it is the full two-field build_values
payload.  This pins the Client::update_txn branch inversion of src/lib.rs
lines 46-50. -/
theorem claim_C1_update_payload :
    spec1t.write_all_fields = true ∧ spec1t.field_count = 2 ∧
    ((CoreWorkload.new pfZero spec1t).bind
      (fun w => (Client.update_txn w oracle0 w.initState).map (fun p => p.1))) =
       POut.ok (DbCall.update "usertable" "user0" [("field0", "v")]) ∧
    spec1f.write_all_fields = false ∧
    ((CoreWorkload.new pfZero spec1f).bind
      (fun w => (Client.update_txn w oracle0 w.initState).map (fun p => p.1))) =
       POut.ok (DbCall.update "usertable" "user0" [("field0", "v"), ("field1", "v")]) := by
  refine ⟨rfl, rfl, by decide, rfl, by decide⟩

/-- Workload spec used for the C2 counterexample: a pure-read transaction mix
over 1001 records with ordered (unhashed) key naming. -/
def spec2 : WorkloadSpec :=
  { WorkloadSpec.default with
      record_count := 1001
      ordered_insert := true
      read_proportion := 1
      update_proportion := 0 }

/-- C2 counterexample: one logical Read operation against a backend that
aborts the first call and accepts the second.  The first attempt reads key
user0 and the retry reads key user1: the retry does not reuse the first
attempt's key, because bench_txn re-runs the Client operation (which re-draws
the transaction key) inside the retry loop. -/
theorem claim_C2_counterexample :
    ((CoreWorkload.new pfZero spec2).bind
      (fun w => benchRetry w oracle0 Operation.Read (fun i => decide (1 ≤ i)) 3 0 0 w.initState)) =
    POut.ok ([(0, [DbCall.read "usertable" "user0" none]),
              (1, [DbCall.read "usertable" "user1" none])],
      true, 2, 2, { keyGen := 0, insertSeq := 1001, dpos := 2, fpos := 0, vpos := 0 }) ∧
    "user0" ≠ "user1" := by
  refine ⟨by decide, by decide⟩

/-- Workload spec used for the C3 failing input: defaults with two fields and
100 records. -/
def spec3 : WorkloadSpec :=
  { WorkloadSpec.default with field_count := 2, record_count := 100 }

/-- The CoreWorkload compiled from spec3. -/
def w3 : CoreWorkload :=
  { field_len_generator := UsizeGen.const 100
    op_generator := { values := [(Operation.Read, 95 / 100), (Operation.Update, 5 / 100)], sum := 1 }
    key_generator := 0
    key_sampler := UsizeGen.unif { low := 0, high := 99 }
    field_generator := { low := 0, high := 1 }
    scan_len_generator := UsizeGen.unif { low := 1, high := 1000 }
    insert_key_sequence := 100
    field_count := 2
    table := "usertable"
    read_all_fields := true
    write_all_fields := false
    ordered_insert := false }

/-- C3: on a workload with field_count = 2 the compiled field-selection
generator is Uniform::new(0, 1), whose support is the half-open range 0..1, so
every draw yields index 0 and next_field_name returns field0 for every RNG
outcome; the index field_count - 1 = 1, hence the name field1, is never
produced, contradicting the claimed inclusive range. -/
theorem claim_C3_field_never_last :
    spec3.field_count = 2 ∧
    CoreWorkload.new pfZero spec3 = POut.ok w3 ∧
    (∀ r : ℕ, w3.field_generator.sample r = 0) ∧
    (∀ (o : Oracle) (s : WState), (w3.next_field_name o s).1 = "field0") := by
  refine ⟨rfl, ?_, ?_, ?_⟩
  · simp [CoreWorkload.new, spec3, WorkloadSpec.default, uniform_gen, Uniform.new, usizeSub,
      discrete_gen, DiscreteDistribution.new, w3]
    norm_num
  · intro r
    simp [w3, Uniform.sample, Nat.mod_one]
  · intro o s
    simp only [w3, CoreWorkload.next_field_name, Uniform.sample, Nat.sub_zero, Nat.mod_one,
      Nat.add_zero, Nat.zero_add]
    decide

/-- C5 counterexample: at min = 0, max = usize::MAX the claim asserts that
construction succeeds whenever theta is not 1 (and returns InvalidArgument
when theta = 1); instead the size computation max - min + 1 overflows usize
and the constructor panics, returning neither Ok nor Err.  Shown here at
theta = 1, where the claim predicts an InvalidArgument error. -/
theorem claim_C5_counterexample :
    ZipfDistribution.new pfZero 0 USIZE_MAX 1 = POut.panic "attempt to add with overflow" ∧
    POut.isErr (ZipfDistribution.new pfZero 0 USIZE_MAX 1) = false ∧
    POut.isOk (ZipfDistribution.new pfZero 0 USIZE_MAX 1) = false := by
  refine ⟨by decide, by decide, by decide⟩

/-- C7 counterexample: a counter created at u64::MAX = 2^64 - 1 returns
2^64 - 1 from the first next() call and 0 from the second, because
AtomicU64::fetch_add wraps; the claim predicts v + i - 1 = 2^64 for the second
call, which is not 0. -/
theorem claim_C7_counterexample :
    CounterGenerator.run [CtrOp.next, CtrOp.next] (2 ^ 64 - 1) = [2 ^ 64 - 1, 0] ∧
    (2 ^ 64 - 1) + 2 - 1 ≠ 0 := by
  refine ⟨by decide, by decide⟩

/-- Key-sampler arm of CoreWorkload::new for a Uniform request distribution:
panics (checked subtraction or the Uniform::new assertion) whenever the record
count is at most 1. -/
theorem keySamplerUniformPanics (rc : ℕ) (h : rc ≤ 1) :
    POut.isPanic ((usizeSub rc 1).bind
      (fun hi => (uniform_gen 0 hi).map UsizeGen.unif)) = true := by
  rcases Nat.le_one_iff_eq_zero_or_eq_one.mp h with h0 | h1
  · simp [h0, usizeSub]
  · simp [h1, usizeSub, uniform_gen, Uniform.new]

/-- Field-generator arm of CoreWorkload::new: panics whenever the field count
is at most 1. -/
theorem fieldGenPanics (fc : ℕ) (h : fc ≤ 1) :
    POut.isPanic ((usizeSub fc 1).bind (fun hi => uniform_gen 0 hi)) = true := by
  rcases Nat.le_one_iff_eq_zero_or_eq_one.mp h with h0 | h1
  · simp [h0, usizeSub]
  · simp [h1, usizeSub, uniform_gen, Uniform.new]

/-- C9: with a well-formed field-length slot and a Uniform request
distribution, CoreWorkload::new panics (and in particular does not return an
InvalidArgument error) whenever record_count <= 1 (the key sampler is built
with Uniform::new(0, record_count - 1): record_count = 0 underflows the
checked subtraction and record_count = 1 violates the min < max assertion) or
whenever field_count <= 1 (same two failure modes for the field-selection
generator Uniform::new(0, field_count - 1)). -/
theorem claim_C9_degenerate_panics (pf : ℚ → ℚ → ℚ) (spec : WorkloadSpec)
    (hf : fieldLenOk spec.field_len_dist)
    (a b : ℕ) (hreq : spec.request_dist = DistributionSpec.Uniform a b)
    (hdeg : spec.record_count ≤ 1 ∨ spec.field_count ≤ 1) :
    POut.isPanic (CoreWorkload.new pf spec) = true ∧
    POut.isErr (CoreWorkload.new pf spec) = false := by
  have hpanic : POut.isPanic (CoreWorkload.new pf spec) = true := by
    unfold CoreWorkload.new
    rw [hreq]
    rcases hfl : spec.field_len_dist with c | ⟨mn, mx⟩ | ⟨n, z⟩ | _
    case Zipfian => rw [hfl] at hf; simp [fieldLenOk] at hf
    case Latest => rw [hfl] at hf; simp [fieldLenOk] at hf
    case Constant =>
      rcases hdeg with hrc | hfc
      · rcases Nat.le_one_iff_eq_zero_or_eq_one.mp hrc with h0 | h1
        · simp [h0, usizeSub, uniform_gen, Uniform.new]
        · simp [h1, usizeSub, uniform_gen, Uniform.new]
      · rcases Nat.lt_or_ge spec.record_count 2 with h2 | h2
        · rcases Nat.le_one_iff_eq_zero_or_eq_one.mp (show spec.record_count ≤ 1 by omega)
            with h0 | h1
          · simp [h0, usizeSub, uniform_gen, Uniform.new]
          · simp [h1, usizeSub, uniform_gen, Uniform.new]
        · have ha : 1 ≤ spec.record_count := by omega
          have hb : 0 < spec.record_count - 1 := by omega
          rcases Nat.le_one_iff_eq_zero_or_eq_one.mp hfc with hf0 | hf1
          · simp [hf0, usizeSub, uniform_gen, Uniform.new, ha, hb]
          · simp [hf1, usizeSub, uniform_gen, Uniform.new, ha, hb]
    case Uniform =>
      rw [hfl] at hf
      simp only [fieldLenOk] at hf
      rcases hdeg with hrc | hfc
      · rcases Nat.le_one_iff_eq_zero_or_eq_one.mp hrc with h0 | h1
        · simp [h0, usizeSub, uniform_gen, Uniform.new, hf]
        · simp [h1, usizeSub, uniform_gen, Uniform.new, hf]
      · rcases Nat.lt_or_ge spec.record_count 2 with h2 | h2
        · rcases Nat.le_one_iff_eq_zero_or_eq_one.mp (show spec.record_count ≤ 1 by omega)
            with h0 | h1
          · simp [h0, usizeSub, uniform_gen, Uniform.new, hf]
          · simp [h1, usizeSub, uniform_gen, Uniform.new, hf]
        · have ha : 1 ≤ spec.record_count := by omega
          have hb : 0 < spec.record_count - 1 := by omega
          rcases Nat.le_one_iff_eq_zero_or_eq_one.mp hfc with hf0 | hf1
          · simp [hf0, usizeSub, uniform_gen, Uniform.new, ha, hb, hf]
          · simp [hf1, usizeSub, uniform_gen, Uniform.new, ha, hb, hf]
  refine ⟨hpanic, ?_⟩
  cases hc : CoreWorkload.new pf spec <;> simp_all [POut.isPanic, POut.isErr]

/-- Workload spec witnessing C9: Uniform request distribution with a single
record. -/
def spec9a : WorkloadSpec :=
  { WorkloadSpec.default with record_count := 1 }

/-- C9 witness: the default spec restricted to record_count = 1 satisfies the
hypotheses and CoreWorkload::new panics on it. -/
theorem claim_C9_witness :
    POut.isPanic (CoreWorkload.new pfZero spec9a) = true ∧
    POut.isErr (CoreWorkload.new pfZero spec9a) = false :=
  claim_C9_degenerate_panics pfZero spec9a trivial 1 1000 rfl (Or.inl (by decide))

/-- C10: SkewedLatestGenerator::new unwraps ZipfDistribution::new(0, m, 0.99)
where m is the basis counter's current value; at m = 0 the domain has a single
element, the inner construction returns InvalidArgument and the unwrap panics.
Consequently CoreWorkload::new on a spec with the Latest request distribution
and record_count = 0 panics, since the insertion-frontier counter feeding
SkewedLatest is seeded with record_count. -/
theorem claim_C10_latest_requires_records (pf : ℚ → ℚ → ℚ) (spec : WorkloadSpec)
    (hf : fieldLenOk spec.field_len_dist)
    (hreq : spec.request_dist = DistributionSpec.Latest)
    (hrc : spec.record_count = 0) :
    POut.isPanic (SkewedLatestGenerator.new pf 0) = true ∧
    POut.isPanic (CoreWorkload.new pf spec) = true := by
  refine ⟨rfl, ?_⟩
  have hsk : SkewedLatestGenerator.new pf (CounterGenerator.last_value 0) =
      POut.panic "called Result::unwrap on an Err value" := rfl
  unfold CoreWorkload.new
  rw [hreq, hrc]
  rcases hfl : spec.field_len_dist with c | ⟨mn, mx⟩ | ⟨n, z⟩ | _
  case Zipfian => rw [hfl] at hf; simp [fieldLenOk] at hf
  case Latest => rw [hfl] at hf; simp [fieldLenOk] at hf
  case Uniform =>
    rw [hfl] at hf
    simp only [fieldLenOk] at hf
    simp [uniform_gen, Uniform.new, hf, hsk]
  case Constant =>
    simp [hsk]

/-- Workload spec witnessing C10: Latest request distribution with no
records. -/
def spec10 : WorkloadSpec :=
  { WorkloadSpec.default with request_dist := DistributionSpec.Latest, record_count := 0 }

/-- C10 witness: the concrete Latest spec with record_count = 0 satisfies the
hypotheses, the skewed-latest constructor panics at frontier 0, and
CoreWorkload::new panics on the spec. -/
theorem claim_C10_witness :
    POut.isPanic (SkewedLatestGenerator.new pfZero 0) = true ∧
    POut.isPanic (CoreWorkload.new pfZero spec10) = true :=
  claim_C10_latest_requires_records pfZero spec10 trivial rfl rfl

/-- The code's Discrete walk with accumulator c / S equals the spec-side walk
with raw accumulator c: in exact arithmetic, summing the normalized weights
one by one is the same as normalizing the running raw sum. -/
theorem discreteGo_eq_spec {α : Type} [Inhabited α] (S u : ℚ) (l : List (α × ℚ)) :
    ∀ c : ℚ, discreteSampleGo S u (c / S) l = discreteSpecGo S u c l := by
  induction l with
  | nil => intro c; rfl
  | cons hd tl ih =>
      intro c
      obtain ⟨t, w⟩ := hd
      simp only [discreteSampleGo, discreteSpecGo, div_add_div_same]
      by_cases h : u < (c + w) / S
      · simp [h]
      · simp only [h, if_false]
        exact ih (c + w)

/-- C6: DiscreteDistribution::sample walks the weight list in insertion order
and returns the first element whose cumulative normalized mass strictly
exceeds the draw u, falling back to the element type's default value when no
element qualifies (in particular on the empty list); this is exactly the
spec-side selection discreteSpecSample. -/
theorem claim_C6_discrete_matches_spec {α : Type} [Inhabited α]
    (values : List (α × ℚ)) (u : ℚ) (h0 : 0 ≤ u) (h1 : u < 1) :
    (DiscreteDistribution.new values).sample u = discreteSpecSample values u := by
  have h := discreteGo_eq_spec ((values.map (fun x => x.2)).sum) u values 0
  rw [zero_div] at h
  exact h

/-- C6 witness: the concrete weighted mix of the spec's example, sampled at
u = 1/2, satisfies the unit-interval hypotheses and matches the spec-side
walk. -/
theorem claim_C6_witness :
    (0 : ℚ) ≤ 1 / 2 ∧ (1 / 2 : ℚ) < 1 ∧
    (DiscreteDistribution.new [(Operation.Read, 3), (Operation.Update, 1)]).sample (1 / 2) =
      discreteSpecSample [(Operation.Read, 3), (Operation.Update, 1)] (1 / 2) :=
  ⟨by norm_num, by norm_num,
    claim_C6_discrete_matches_spec [(Operation.Read, 3), (Operation.Update, 1)] (1 / 2)
      (by norm_num) (by norm_num)⟩

/-- C7 (amended): over any interleaving of next and last_value calls against a
counter created with a u64 seed v, the j-th observed value is
(v + number of next calls before position j) mod 2^64: next returns the
previous value and advances with wraparound, and last_value reads the current
value without advancing, so interleaved last_value calls do not change what
subsequent next calls return.  In particular the i-th of n sequential next
calls returns (v + i - 1) mod 2^64. -/
theorem claim_C7_run_formula (v : ℕ) (hv : v < 2 ^ 64) (ops : List CtrOp) (j : ℕ)
    (hj : j < ops.length) :
    (CounterGenerator.run ops v)[j]? = some ((v + countNext (ops.take j)) % 2 ^ 64) := by
  induction ops generalizing v j with
  | nil => simp at hj
  | cons op rest ih =>
      have hM : (0 : ℕ) < 2 ^ 64 := by positivity
      cases j with
      | zero =>
          cases op <;>
            (simp [CounterGenerator.run, CounterGenerator.next, CounterGenerator.last_value,
              countNext]
             omega)
      | succ j =>
          have h2 : j < rest.length := by simpa using hj
          cases op
          case next =>
              have hlt : (v + 1) % 2 ^ 64 < 2 ^ 64 := Nat.mod_lt _ hM
              have hrec := ih ((v + 1) % 2 ^ 64) hlt j h2
              simp only [CounterGenerator.run, CounterGenerator.next, List.getElem?_cons_succ,
                List.take_succ_cons, countNext]
              rw [hrec, Nat.mod_add_mod]
              have harith : v + 1 + countNext (rest.take j) = v + (countNext (rest.take j) + 1) := by
                omega
              rw [harith]
          case last =>
              have hrec := ih v hv j h2
              simp only [CounterGenerator.run, CounterGenerator.last_value,
                List.getElem?_cons_succ, List.take_succ_cons, countNext]
              exact hrec

/-- C7 witness: seed 5, call sequence next, last_value, next; the third
observation (index 2) is (5 + 1) mod 2^64 = 6, the second next call returning
one more than the first despite the interleaved last_value. -/
theorem claim_C7_witness :
    (CounterGenerator.run [CtrOp.next, CtrOp.last, CtrOp.next] 5)[2]? =
      some ((5 + countNext ([CtrOp.next, CtrOp.last, CtrOp.next].take 2)) % 2 ^ 64) :=
  claim_C7_run_formula 5 (by decide) [CtrOp.next, CtrOp.last, CtrOp.next] 2 (by decide)

/-- One-step unfolding of the retry loop at positive fuel. -/
theorem benchRetry_succ (w : CoreWorkload) (o : Oracle) (op : Operation) (db : ℕ → Bool)
    (fuel txnId ci : ℕ) (s : WState) :
    benchRetry w o op db (fuel + 1) txnId ci s =
      (attemptOp w o op db ci s).bind (fun r =>
        if r.2.1 then POut.ok ([(txnId, r.1)], true, txnId + 1, r.2.2.1, r.2.2.2)
        else
          (benchRetry w o op db fuel (txnId + 1) r.2.2.1 r.2.2.2).map
            (fun rest => ((txnId, r.1) :: rest.1, rest.2))) := rfl

/-- Unfolds a map over an initial range by one element. -/
theorem map_range_succ {α : Type} (f : ℕ → α) (k : ℕ) :
    (List.range (k + 1)).map f = f 0 :: (List.range k).map (fun j => f (j + 1)) := by
  rw [List.range_succ_eq_map, List.map_cons, List.map_map]
  simp [Function.comp, Nat.succ_eq_add_one]

/-- Unfolds a map over an initial range by two elements. -/
theorem map_range_add_two {α : Type} (f : ℕ → α) (k : ℕ) :
    (List.range (k + 1 + 1)).map f = f 0 :: f 1 :: (List.range k).map (fun j => f (j + 2)) := by
  rw [map_range_succ f (k + 1), map_range_succ (fun j => f (j + 1)) k]

/-- For the four single-call operation types, one attempt of the retry loop
runs the corresponding Client operation and consults the backend for its one
call. -/
theorem attemptOp_eq_clientOp (w : CoreWorkload) (o : Oracle) (op : Operation)
    (hop : op ≠ Operation.ReadModifyWrite) (db : ℕ → Bool) (ci : ℕ) (s : WState) :
    attemptOp w o op db ci s =
      (clientOp w o op s).map (fun p => ([p.1], db ci, ci + 1, p.2)) := by
  cases op
  case ReadModifyWrite => exact absurd rfl hop
  all_goals rfl

/-- A ReadModifyWrite attempt whose read call is aborted behaves exactly as
Client::read_txn: the key (and, without read_all_fields, the field name) is
drawn, the read issued, and the update never attempted. -/
theorem attemptOp_rmw_abort (w : CoreWorkload) (o : Oracle) (db : ℕ → Bool)
    (ci : ℕ) (s : WState) (hdb : db ci = false) :
    attemptOp w o Operation.ReadModifyWrite db ci s =
      (Client.read_txn w o s).map (fun p => ([p.1], false, ci + 1, p.2)) := by
  unfold attemptOp Client.read_txn
  cases w.next_transaction_key o s <;> simp [POut.bind, POut.map, hdb]

/-- A ReadModifyWrite attempt whose read call succeeds issues both calls of
Client::rmw_txn and consults the backend for the update. -/
theorem attemptOp_rmw_success (w : CoreWorkload) (o : Oracle) (db : ℕ → Bool)
    (ci : ℕ) (s : WState) (hdb : db ci = true) :
    attemptOp w o Operation.ReadModifyWrite db ci s =
      (Client.rmw_txn w o s).map (fun p => (p.1, db (ci + 1), ci + 2, p.2)) := by
  unfold attemptOp Client.rmw_txn
  cases w.next_transaction_key o s <;> simp [POut.bind, POut.map, hdb]

/-- Retry loop of bench_txn for a single-call operation, against a backend
that aborts every call with index below n: given that re-running the Client
operation from successive workload states ss j yields call cs j and state
ss (j + 1), the loop with k aborts left (ci + k = n) performs k + 1 attempts,
the j-th on fresh transaction handle txnId + j with the freshly produced call
cs (ci + j). -/
theorem benchRetry_clientOp_aborts (w : CoreWorkload) (o : Oracle) (op : Operation)
    (hop : op ≠ Operation.ReadModifyWrite) (n : ℕ) (cs : ℕ → DbCall) (ss : ℕ → WState)
    (hstep : ∀ j, clientOp w o op (ss j) = POut.ok (cs j, ss (j + 1))) :
    ∀ (k txnId ci : ℕ), ci + k = n →
      benchRetry w o op (fun i => decide (n ≤ i)) (k + 1) txnId ci (ss ci) =
        POut.ok ((List.range (k + 1)).map (fun j => (txnId + j, [cs (ci + j)])),
          true, txnId + k + 1, ci + k + 1, ss (ci + k + 1)) := by
  intro k
  induction k with
  | zero =>
      intro txnId ci hc
      have hok : decide (n ≤ ci) = true := by
        simp only [decide_eq_true_eq]
        omega
      rw [benchRetry_succ, attemptOp_eq_clientOp w o op hop _ ci (ss ci), hstep ci]
      simp [hok, List.range_succ]
  | succ k ih =>
      intro txnId ci hc
      have hab : decide (n ≤ ci) = false := by
        simp only [decide_eq_false_iff_not]
        omega
      have hrec := ih (txnId + 1) (ci + 1) (by omega)
      rw [benchRetry_succ, attemptOp_eq_clientOp w o op hop _ ci (ss ci), hstep ci]
      simp only [POut.map_ok, POut.bind_ok, hab, Bool.false_eq_true, if_false]
      rw [hrec]
      simp only [POut.map_ok, POut.ok.injEq, Prod.mk.injEq]
      refine ⟨?_, trivial, by omega, by omega, ?_⟩
      · rw [map_range_add_two, map_range_succ]
        have e1 : ∀ j : ℕ, txnId + 1 + (j + 1) = txnId + (j + 2) := fun j => by omega
        have e2 : ∀ j : ℕ, ci + 1 + (j + 1) = ci + (j + 2) := fun j => by omega
        simp [e1, e2]
      · congr 1
        omega

/-- Retry loop of bench_txn for ReadModifyWrite, against a backend that
aborts every call with index below n: each aborted attempt re-runs the read
part from the advanced state (one read call, update never attempted), and the
final attempt, whose read succeeds, issues the two calls of Client::rmw_txn
built from the state those aborted attempts left behind. -/
theorem benchRetry_rmw_aborts (w : CoreWorkload) (o : Oracle) (n : ℕ)
    (rs : ℕ → DbCall) (ss : ℕ → WState) (fcalls : List DbCall) (sfin : WState)
    (hread : ∀ j, Client.read_txn w o (ss j) = POut.ok (rs j, ss (j + 1)))
    (hfull : Client.rmw_txn w o (ss n) = POut.ok (fcalls, sfin)) :
    ∀ (k txnId ci : ℕ), ci + k = n →
      benchRetry w o Operation.ReadModifyWrite (fun i => decide (n ≤ i)) (k + 1) txnId ci (ss ci) =
        POut.ok ((List.range k).map (fun j => (txnId + j, [rs (ci + j)])) ++
            [(txnId + k, fcalls)],
          true, txnId + k + 1, ci + k + 2, sfin) := by
  intro k
  induction k with
  | zero =>
      intro txnId ci hc
      have hci : ci = n := by omega
      subst hci
      rw [benchRetry_succ, attemptOp_rmw_success w o _ ci (ss ci) (by simp), hfull]
      simp
  | succ k ih =>
      intro txnId ci hc
      have hab : decide (n ≤ ci) = false := by
        simp only [decide_eq_false_iff_not]
        omega
      have hrec := ih (txnId + 1) (ci + 1) (by omega)
      rw [benchRetry_succ, attemptOp_rmw_abort w o _ ci (ss ci) hab, hread ci]
      simp only [POut.map_ok, POut.bind_ok, Bool.false_eq_true, if_false]
      rw [hrec]
      simp only [POut.map_ok, POut.ok.injEq, Prod.mk.injEq]
      refine ⟨?_, trivial, by omega, by omega, trivial⟩
      rw [map_range_succ, List.cons_append]
      congr 1
      congr 1
      · refine List.map_congr_left ?_
        intro a ha
        have h1 : txnId + 1 + a = txnId + (a + 1) := by omega
        have h2 : ci + 1 + a = ci + (a + 1) := by omega
        rw [h1, h2]
      · have h3 : txnId + 1 + k = txnId + (k + 1) := by omega
        rw [h3]

/-- C2 (amended): in the transaction phase a TransactionAborted operation is
retried with a fresh transaction handle each attempt, and only the operation
type is fixed across attempts: every retry re-runs the Client operation from
the workload's advanced generator state.  First conjunct: for each of the
four single-call operation types (Read, Update, Insert, Scan), if re-running
the operation from successive states ss j yields call cs j (key, and for
Update the value payload, freshly produced each time), then against a backend
aborting the first n calls the loop commits on attempt n, having issued
exactly the calls cs 0, ..., cs n on transaction handles txn0, ..., txn0 + n.
Second conjunct: for ReadModifyWrite, each aborted attempt issues the
freshly built read rs j and never reaches the update, and the final attempt
issues the read and update of Client::rmw_txn built from the state the
aborted attempts left behind. -/
theorem claim_C2_retry_redraws (w : CoreWorkload) (o : Oracle) (n txn0 : ℕ) :
    (∀ (op : Operation), op ≠ Operation.ReadModifyWrite →
      ∀ (cs : ℕ → DbCall) (ss : ℕ → WState),
        (∀ j, clientOp w o op (ss j) = POut.ok (cs j, ss (j + 1))) →
        benchRetry w o op (fun i => decide (n ≤ i)) (n + 1) txn0 0 (ss 0) =
          POut.ok ((List.range (n + 1)).map (fun j => (txn0 + j, [cs j])),
            true, txn0 + n + 1, n + 1, ss (n + 1))) ∧
    (∀ (rs : ℕ → DbCall) (ss : ℕ → WState) (fcalls : List DbCall) (sfin : WState),
        (∀ j, Client.read_txn w o (ss j) = POut.ok (rs j, ss (j + 1))) →
        Client.rmw_txn w o (ss n) = POut.ok (fcalls, sfin) →
        benchRetry w o Operation.ReadModifyWrite (fun i => decide (n ≤ i)) (n + 1) txn0 0 (ss 0) =
          POut.ok ((List.range n).map (fun j => (txn0 + j, [rs j])) ++ [(txn0 + n, fcalls)],
            true, txn0 + n + 1, n + 2, sfin)) := by
  constructor
  · intro op hop cs ss hstep
    have h := benchRetry_clientOp_aborts w o op hop n cs ss hstep n txn0 0 (by omega)
    simpa using h
  · intro rs ss fcalls sfin hread hfull
    have h := benchRetry_rmw_aborts w o n rs ss fcalls sfin hread hfull n txn0 0 (by omega)
    simpa using h

/-- A concrete CoreWorkload for the C2 and C8 witnesses: pure-read mix,
Uniform key sampler over 0..1000, ordered key naming. -/
def wB : CoreWorkload :=
  { field_len_generator := UsizeGen.const 100
    op_generator := { values := [(Operation.Read, 1)], sum := 1 }
    key_generator := 0
    key_sampler := UsizeGen.unif { low := 0, high := 1000 }
    field_generator := { low := 0, high := 9 }
    scan_len_generator := UsizeGen.unif { low := 1, high := 1000 }
    insert_key_sequence := 1001
    field_count := 10
    table := "usertable"
    read_all_fields := true
    write_all_fields := false
    ordered_insert := true }

/-- A concrete oracle whose generated value strings are pairwise distinct
(value draw i is the decimal string of i), so payload re-draws are visible. -/
def oracleN : Oracle :=
  { draws := fun i => i
    floats := fun _ => 0
    values := fun i => toString i
    hash64 := fun i => i
    powf := pfZero }

/-- Concrete workload for the C2 witness, Update side: two fields, Uniform
key sampler over 0..1000, ordered key naming, write_all_fields clear (so an
update payload is the full two-field build_values set). -/
def wC : CoreWorkload :=
  { field_len_generator := UsizeGen.const 100
    op_generator := { values := [(Operation.Update, 1)], sum := 1 }
    key_generator := 0
    key_sampler := UsizeGen.unif { low := 0, high := 1000 }
    field_generator := { low := 0, high := 1 }
    scan_len_generator := UsizeGen.unif { low := 1, high := 1000 }
    insert_key_sequence := 1001
    field_count := 2
    table := "usertable"
    read_all_fields := true
    write_all_fields := false
    ordered_insert := true }

/-- The same workload with write_all_fields set, for the ReadModifyWrite side
of the C2 witness. -/
def wR : CoreWorkload :=
  { wC with write_all_fields := true }

/-- Workload states of the Update attempts: attempt j starts having consumed
j raw draws and 2j value draws. -/
def ssU (j : ℕ) : WState :=
  { keyGen := 0, insertSeq := 1001, dpos := j, fpos := 0, vpos := 2 * j }

/-- The update call of attempt j: key drawn from raw draw j, payload freshly
generated from value draws 2j and 2j + 1 (distinct across attempts). -/
def csU (j : ℕ) : DbCall :=
  DbCall.update "usertable" ("user" ++ toString (j % 1000))
    [("field0", toString (2 * j)), ("field1", toString (2 * j + 1))]

/-- Running one Update from the attempt-j state produces the attempt-j call
and the attempt-(j+1) state: key and payload are re-drawn on every run. -/
theorem clientOp_update_step (j : ℕ) :
    clientOp wC oracleN Operation.Update (ssU j) = POut.ok (csU j, ssU (j + 1)) := by
  simp only [clientOp, Client.update_txn, CoreWorkload.next_transaction_key, UsizeGen.next,
    wC, Uniform.sample, CoreWorkload.get_key_name, oracleN, CoreWorkload.build_values,
    buildValuesAux, CoreWorkload.next_field_value, CoreWorkload.next_table, ssU, csU,
    POut.map_ok, Nat.sub_zero, Nat.zero_add, if_true, if_false, Bool.false_eq_true]
  simp only [POut.ok.injEq, Prod.mk.injEq, WState.mk.injEq]
  refine ⟨?_, trivial, trivial, trivial, trivial, by omega⟩
  have hf0 : "field" ++ toString (0 : ℕ) = "field0" := by decide
  have hf1 : "field" ++ toString (1 : ℕ) = "field1" := by decide
  simp [hf0, hf1]

/-- Workload states of the ReadModifyWrite attempts: the aborted read of
attempt j has consumed j raw draws and no value draws. -/
def ssR (j : ℕ) : WState :=
  { keyGen := 0, insertSeq := 1001, dpos := j, fpos := 0, vpos := 0 }

/-- The read call of aborted attempt j: key freshly drawn from raw draw j. -/
def rsR (j : ℕ) : DbCall :=
  DbCall.read "usertable" ("user" ++ toString (j % 1000)) none

/-- Each aborted ReadModifyWrite attempt re-draws its key. -/
theorem read_txn_step (j : ℕ) :
    Client.read_txn wR oracleN (ssR j) = POut.ok (rsR j, ssR (j + 1)) := by
  simp only [Client.read_txn, CoreWorkload.next_transaction_key, UsizeGen.next, wR, wC,
    Uniform.sample, CoreWorkload.get_key_name, oracleN, CoreWorkload.next_table, ssR, rsR,
    POut.map_ok, Nat.sub_zero, Nat.zero_add, if_true]

/-- C2 witness.  First conjunct (Update, one abort): attempt 0 updates user0
with values 0 and 1, the retry updates user1 with freshly generated values 2
and 3 - a different key and a different payload.  Second conjunct
(ReadModifyWrite, one abort): the aborted attempt reads user0, the retry
reads user1 and updates it with the freshly drawn field0 / value 0 pair.
Both commit on transaction handle 1 after aborting handle 0. -/
theorem claim_C2_witness :
    (benchRetry wC oracleN Operation.Update (fun i => decide (1 ≤ i)) 2 0 0 (ssU 0) =
      POut.ok ((List.range 2).map (fun j => (0 + j, [csU j])), true, 2, 2, ssU 2)) ∧
    (benchRetry wR oracleN Operation.ReadModifyWrite (fun i => decide (1 ≤ i)) 2 0 0 (ssR 0) =
      POut.ok ((List.range 1).map (fun j => (0 + j, [rsR j])) ++
          [(0 + 1, [DbCall.read "usertable" "user1" none,
                    DbCall.update "usertable" "user1" [("field0", "0")]])],
        true, 2, 3, { keyGen := 0, insertSeq := 1001, dpos := 3, fpos := 0, vpos := 1 })) :=
  ⟨(claim_C2_retry_redraws wC oracleN 1 0).1 Operation.Update (by decide) csU ssU
      clientOp_update_step,
   (claim_C2_retry_redraws wR oracleN 1 0).2 rsR ssR
      [DbCall.read "usertable" "user1" none,
       DbCall.update "usertable" "user1" [("field0", "0")]]
      { keyGen := 0, insertSeq := 1001, dpos := 3, fpos := 0, vpos := 1 }
      read_txn_step (by decide)⟩

/-- C5 (amended): characterization of ZipfDistribution::new for bounded usize
inputs.  It returns an InvalidArgument error exactly when max < min, or when
(without overflow of max - min + 1) the domain size is below 2 or theta is
exactly 1.0; at min = 0, max = usize::MAX the size computation max - min + 1
overflows usize and the constructor panics instead of returning an error; for
all other inputs construction succeeds with base = min,
num_items = max - min + 1, alpha = 1 / (1 - theta), and eta computed from
zeta(2, theta) and zeta(num_items, theta). -/
theorem claim_C5_zipf_new_characterization (pf : ℚ → ℚ → ℚ) (mn mx : ℕ) (theta : ℚ)
    (hmax : mx ≤ USIZE_MAX) :
    (POut.isErr (ZipfDistribution.new pf mn mx theta) = true ↔
      (mx < mn ∨ (¬(mn = 0 ∧ mx = USIZE_MAX) ∧ (mx - mn + 1 < 2 ∨ theta = 1)))) ∧
    (POut.isPanic (ZipfDistribution.new pf mn mx theta) = true ↔
      (¬ mx < mn ∧ mn = 0 ∧ mx = USIZE_MAX)) ∧
    (¬ mx < mn → ¬(mn = 0 ∧ mx = USIZE_MAX) → 2 ≤ mx - mn + 1 → theta ≠ 1 →
      ZipfDistribution.new pf mn mx theta =
        POut.ok { base := mn, num_items := mx - mn + 1, theta := theta,
                  zeta_n := zeta pf (mx - mn + 1) theta,
                  alpha := 1 / (1 - theta),
                  eta := (1 - pf (2 / ((mx - mn + 1 : ℕ) : ℚ)) (1 - theta)) /
                    (1 - zeta pf 2 theta / zeta pf (mx - mn + 1) theta) }) := by
  unfold ZipfDistribution.new
  by_cases hlt : mx < mn
  · simp [hlt]
  · by_cases hov : mn = 0 ∧ mx = USIZE_MAX
    · have hpan : usizeAdd (mx - mn) 1 = POut.panic "attempt to add with overflow" := by
        unfold usizeAdd
        rw [if_neg (by omega)]
      rw [hpan]
      simp [hlt, hov]
    · have hadd : usizeAdd (mx - mn) 1 = POut.ok (mx - mn + 1) := by
        unfold usizeAdd
        rw [if_pos (by omega)]
      rw [hadd]
      by_cases h2 : mx - mn + 1 < 2
      · have h2n : ¬ 2 ≤ mx - mn + 1 := by omega
        simp [hlt, hov, h2, h2n]
      · by_cases hth : theta = 1
        · simp [hlt, hov, h2, hth]
        · simp [hlt, hov, h2, hth]

/-- C5 witness: min = 0, max = 5, theta = 1/2 satisfies the hypotheses and the
construction succeeds with the claimed field values (num_items = 6). -/
theorem claim_C5_witness :
    ZipfDistribution.new pfZero 0 5 (1 / 2) =
      POut.ok { base := 0, num_items := 6, theta := 1 / 2,
                zeta_n := zeta pfZero 6 (1 / 2),
                alpha := 1 / (1 - 1 / 2),
                eta := (1 - pfZero (2 / ((6 : ℕ) : ℚ)) (1 - 1 / 2)) /
                  (1 - zeta pfZero 2 (1 / 2) / zeta pfZero 6 (1 / 2)) } :=
  (claim_C5_zipf_new_characterization pfZero 0 5 (1 / 2) (by decide)).2.2
    (by omega) (by decide) (by decide) (by norm_num)

/-- The batch built by load_db has exactly the requested number of records. -/
theorem buildBatch_length (w : CoreWorkload) (o : Oracle) :
    ∀ (n : ℕ) (s : WState), (buildBatch w o n s).1.length = n := by
  intro n
  induction n with
  | zero => intro s; rfl
  | succ n ih =>
      intro s
      simp [buildBatch, ih]

/-- load_batch against an always-successful backend inserts every record and
advances the call counter by the batch length. -/
theorem load_batch_all_ok (db : ℕ → Bool) (hdb : ∀ i, db i = true) :
    ∀ (batch : List (String × String × List (String × String))) (ci : ℕ),
      load_batch db ci batch = (true, ci + batch.length) := by
  intro batch
  induction batch with
  | nil => intro ci; simp [load_batch]
  | cons hd tl ih =>
      intro ci
      simp [load_batch, hdb ci, ih (ci + 1)]
      omega

/-- The per-batch retry loop against an always-successful backend commits on
the first attempt, using exactly one transaction. -/
theorem loadBatchRetry_all_ok (db : ℕ → Bool) (hdb : ∀ i, db i = true)
    (batch : List (String × String × List (String × String))) (fuel ci txns : ℕ)
    (hfuel : 0 < fuel) :
    loadBatchRetry db batch fuel ci txns = some (batch.length, ci + batch.length, txns + 1) := by
  cases fuel with
  | zero => omega
  | succ f => simp [loadBatchRetry, load_batch_all_ok db hdb batch ci]

/-- The committed batch-size list of a load of m remaining records in batches
of bs: full batches followed by the clamped remainder. -/
def chunksList (bs m : ℕ) : List ℕ :=
  List.replicate (m / bs) bs ++ (if m % bs = 0 then [] else [m % bs])

/-- Unfolding of chunksList by one batch. -/
theorem chunksList_cons (bs m : ℕ) (hbs : 0 < bs) (hm : 0 < m) :
    chunksList bs m = min bs m :: chunksList bs (m - bs) := by
  unfold chunksList
  rcases Nat.lt_or_ge m bs with hlt | hge
  · have h1 : m / bs = 0 := Nat.div_eq_of_lt hlt
    have h2 : m % bs = m := Nat.mod_eq_of_lt hlt
    have h3 : m - bs = 0 := by omega
    have h4 : min bs m = m := by omega
    simp [h1, h2, h3, h4, Nat.pos_iff_ne_zero.mp hm]
  · have h1 : m / bs = (m - bs) / bs + 1 := Nat.div_eq_sub_div hbs hge
    have h2 : m % bs = (m - bs) % bs := Nat.mod_eq_sub_mod hge
    have h3 : min bs m = bs := by omega
    rw [h1, h2, h3, List.replicate_succ, List.cons_append]

/-- The batch loop of load_db against an always-successful backend: starting
at offset b with m = numOps - b records remaining, it inserts exactly m
records, committing the chunksList batch sizes one transaction each, and
issues m insert calls. -/
theorem loadGo_all_ok (w : CoreWorkload) (o : Oracle) (db : ℕ → Bool)
    (numOps batchSize fuel : ℕ) (hbs : 0 < batchSize) (hfuel : 0 < fuel)
    (hdb : ∀ i, db i = true) :
    ∀ (m b ci txns : ℕ) (s : WState), numOps - b = m →
      ∃ s', loadGo w o db numOps batchSize fuel hbs b ci txns s =
        some (m, chunksList batchSize m, txns + (chunksList batchSize m).length,
          ci + m, s') := by
  intro m
  induction m using Nat.strong_induction_on with
  | _ m ih =>
    intro b ci txns s hm
    by_cases hb : b < numOps
    · have hmpos : 0 < m := by omega
      have hcount : min batchSize (numOps - b) = min batchSize m := by rw [hm]
      have hretry := loadBatchRetry_all_ok db hdb
        (buildBatch w o (min batchSize (numOps - b)) s).1 fuel ci txns hfuel
      rw [buildBatch_length w o (min batchSize (numOps - b)) s] at hretry
      obtain ⟨s', hs'⟩ := ih (m - batchSize) (by omega) (b + batchSize)
        (ci + min batchSize (numOps - b)) (txns + 1)
        (buildBatch w o (min batchSize (numOps - b)) s).2 (by omega)
      refine ⟨s', ?_⟩
      rw [loadGo, dif_pos hb]
      dsimp only
      rw [hretry]
      dsimp only
      rw [hs']
      dsimp only
      rw [chunksList_cons batchSize m hbs hmpos]
      simp only [Option.some.injEq, Prod.mk.injEq, List.length_cons]
      refine ⟨by omega, ?_, by omega, by omega, trivial⟩
      rw [hcount]
    · have hm0 : m = 0 := by omega
      subst hm0
      refine ⟨s, ?_⟩
      rw [loadGo, dif_neg hb]
      simp [chunksList]

/-- C8: when every backend call succeeds, load_db with a positive batch size
inserts exactly num_ops records and reports num_ops, grouping the inserts
into one transaction per batch: num_ops / batch_size full batches of
batch_size records followed, when num_ops mod batch_size is nonzero, by one
final partial batch clamped to exactly that remainder; the number of
transactions equals the number of batches and num_ops insert calls are
issued. -/
theorem claim_C8_load_batches (w : CoreWorkload) (o : Oracle) (db : ℕ → Bool)
    (numOps batchSize fuel : ℕ) (hbs : 0 < batchSize) (hfuel : 0 < fuel)
    (hdb : ∀ i, db i = true) (s : WState) :
    ∃ s', load_db w o db numOps batchSize fuel s =
      POut.ok (some (numOps,
        List.replicate (numOps / batchSize) batchSize ++
          (if numOps % batchSize = 0 then [] else [numOps % batchSize]),
        (List.replicate (numOps / batchSize) batchSize ++
          (if numOps % batchSize = 0 then [] else [numOps % batchSize])).length,
        numOps, s')) := by
  obtain ⟨s', hs'⟩ := loadGo_all_ok w o db numOps batchSize fuel hbs hfuel hdb
    numOps 0 0 0 s (by omega)
  refine ⟨s', ?_⟩
  unfold load_db
  rw [dif_pos hbs, hs']
  simp [chunksList]

/-- C8 witness: five records in batches of two against an always-successful
backend: three transactions committing batches of sizes 2, 2 and 1, five
records total. -/
theorem claim_C8_witness :
    ∃ s', load_db wB oracle0 (fun i => true) 5 2 1 wB.initState =
      POut.ok (some (5,
        List.replicate (5 / 2) 2 ++ (if 5 % 2 = 0 then [] else [5 % 2]),
        (List.replicate (5 / 2) 2 ++ (if 5 % 2 = 0 then [] else [5 % 2])).length,
        5, s')) :=
  claim_C8_load_batches wB oracle0 (fun i => true) 5 2 1 (by decide) (by decide)
    (fun i => rfl) wB.initState

end YCSB
